import Mathlib

/-!
Shallow embedding of the ReservaFlow restaurant-reservation core
(`reservations/models.py`, `reservations/views.py`, `reservations/tasks.py`,
`reservations/serializers.py`, `restaurants/services.py`) and proofs of the
specification claims about it.

Conventions of the embedding:
* dates are day numbers (`Nat`), times of day are minutes since midnight
  (`Nat`, so `time(10,0)` is `600` and `time(22,0)` is `1320`);
* `now` is a timestamp in minutes, used for `expires_at` comparisons;
  `today` is the current day number (`timezone.now().date()`);
* the relational store is a list of reservation rows; the primary key makes
  row ids unique (`wf`), and Django's `save()` (UPDATE by pk, else INSERT)
  is the first-match upsert `db_save`;
* the one denormalized field is `table_capacity`, standing for
  `self.table.capacity` of the referenced table row;
* fallible Python code (raised exceptions) is `Except` / explicit outcome
  constructors; transient infrastructure faults (OperationalError, Redis
  connection errors) are outside the embedding.
-/

namespace ReservaFlow

/-- Reservation.Status from reservations/models.py. -/
inductive Status where
  | pending
  | confirmed
  | completed
  | cancelled
  | no_show
  | expired
deriving DecidableEq, Repr

/-- One bookable unit: a (table, date, time) triple. -/
structure Slot where
  table_id : Nat
  reservation_date : Nat
  reservation_time : Nat
deriving DecidableEq, Repr

/-- One row of the Reservation table (reservations/models.py). -/
structure Reservation where
  id : Nat
  table_id : Nat
  reservation_date : Nat
  reservation_time : Nat
  party_size : Nat
  table_capacity : Nat
  status : Status
  expires_at : Option Nat
deriving DecidableEq, Repr

/-- The slot a reservation occupies. -/
def Reservation.slot (r : Reservation) : Slot :=
  ⟨r.table_id, r.reservation_date, r.reservation_time⟩

/-- Membership in `status__in=["pending", "confirmed"]`, the statuses the
partial unique constraint and all availability checks filter on. -/
def activeStatus : Status → Bool
  | .pending => true
  | .confirmed => true
  | _ => false

/-- The reservation table. -/
abbrev DB := List Reservation

/-- Primary-key uniqueness of the stored rows. -/
def wf (db : DB) : Prop := (db.map Reservation.id).Nodup

/-- Validation `_validate_dates`: no past dates, at most 90 days ahead,
time of day between 10:00 and 22:00 inclusive. -/
def validate_dates (today : Nat) (r : Reservation) : Bool :=
  decide (today ≤ r.reservation_date) && decide (r.reservation_date ≤ today + 90) &&
  decide (600 ≤ r.reservation_time) && decide (r.reservation_time ≤ 1320)

/-- Validation `_validate_party_size`. The source guards the checks with
`if self.party_size:`, so a zero party size skips them (Python truthiness). -/
def validate_party_size (r : Reservation) : Bool :=
  decide (r.party_size = 0) ||
    (decide (1 ≤ r.party_size) && decide (r.party_size ≤ 12) &&
      decide (r.party_size ≤ r.table_capacity))

/-- Validation `_validate_no_double_booking`: no other row (different pk) with
the same slot and an active status. -/
def validate_no_double_booking (db : DB) (r : Reservation) : Bool :=
  !(db.any fun x =>
      decide (x.id ≠ r.id) && decide (x.slot = r.slot) && activeStatus x.status)

/-- Validation `full_clean` run inside `Reservation.save`. -/
def full_clean (db : DB) (today : Nat) (r : Reservation) : Bool :=
  validate_no_double_booking db r && validate_dates today r && validate_party_size r

/-- The partial unique constraint
`unique_active_reservation_per_table_datetime`: inserting or updating a row to
an active status fails when another active row occupies the same slot. -/
def violatesUniqueConstraint (db : DB) (r : Reservation) : Bool :=
  activeStatus r.status &&
    db.any fun x =>
      decide (x.id ≠ r.id) && decide (x.slot = r.slot) && activeStatus x.status

/-- Django's `super().save()` row write: UPDATE the row with this pk if one
exists, otherwise INSERT.  Primary-key uniqueness (`wf`) makes first-match
replacement the same as replacement of every pk match. -/
def db_save : DB → Reservation → DB
  | [], r => [r]
  | x :: xs, r => if x.id = r.id then r :: xs else x :: db_save xs r

/-- The two failure modes of `Reservation.save`: a `ValidationError` from
`full_clean` or an `IntegrityError` from the unique constraint. -/
inductive SaveError where
  | validationError
  | integrityError
deriving DecidableEq, Repr

/-- Default `RESERVATION_PENDING_TIMEOUT` in minutes (models.py line 185). -/
def RESERVATION_PENDING_TIMEOUT : Nat := 15

/-- First step of `Reservation.save`: set `expires_at = now + timeout` when the
row is pending and `expires_at` is not yet set. -/
def setExpires (now : Nat) (r : Reservation) : Reservation :=
  if r.status = .pending ∧ r.expires_at = none then
    { r with expires_at := some (now + RESERVATION_PENDING_TIMEOUT) }
  else r

/-- Embedding of `Reservation.save` (models.py lines 171-209): set
`expires_at` if needed, run `full_clean`, then write the row subject to the
partial unique constraint.  The scheduling side effects (expiration job,
reminder job) touch only the task queue, never the reservation table, and are
omitted here. -/
def save (now today : Nat) (db : DB) (r0 : Reservation) :
    Except SaveError (DB × Reservation) :=
  let r := setExpires now r0
  if full_clean db today r then
    if violatesUniqueConstraint db r then .error .integrityError
    else .ok (db_save db r, r)
  else .error .validationError

/-- Row lookup `Reservation.objects.get(id=...)` / `filter(pk=...)`. -/
def findRes (db : DB) (rid : Nat) : Option Reservation :=
  db.find? fun x => decide (x.id = rid)

/-! ### Creation Orchestrator (`ReservationViewSet.create`, views.py) -/

/-- Input of the create endpoint (request body fields used by the view). -/
structure CreateRequest where
  id : Nat
  table_id : Nat
  reservation_date : Nat
  reservation_time : Nat
  party_size : Nat
  table_capacity : Nat
deriving DecidableEq, Repr

/-- The fresh Reservation the view hands to `Reservation.objects.create`:
status defaults to PENDING, `expires_at` is not yet set. -/
def CreateRequest.toReservation (q : CreateRequest) : Reservation :=
  { id := q.id, table_id := q.table_id, reservation_date := q.reservation_date,
    reservation_time := q.reservation_time, party_size := q.party_size,
    table_capacity := q.table_capacity, status := .pending, expires_at := none }

/-- The slot a create request addresses. -/
def CreateRequest.slot (q : CreateRequest) : Slot :=
  ⟨q.table_id, q.reservation_date, q.reservation_time⟩

/-- The view's locked pre-check: `select_for_update().filter(table, date, time,
status__in=["pending", "confirmed"]).exists()`. -/
def hasActiveOnSlot (db : DB) (s : Slot) : Bool :=
  db.any fun x => decide (x.slot = s) && activeStatus x.status

/-- HTTP outcome of the create endpoint: 201, 409 or 400. -/
inductive CreateResult where
  | created (rid : Nat)
  | conflict
  | validationFailed
deriving DecidableEq, Repr

/-- Embedding of the serialized critical section of `ReservationViewSet.create`
(views.py lines 108-196): inside the slot lock and the storage transaction, the
pre-check runs first; otherwise the row is inserted, with an `IntegrityError`
from the unique constraint mapped to 409 Conflict and a `ValidationError`
mapped to 400.  The lock acquisition, cache invalidation and the asynchronous
email / expiration scheduling around this section do not touch the
reservation table. -/
def create (now today : Nat) (db : DB) (q : CreateRequest) : CreateResult × DB :=
  if hasActiveOnSlot db q.slot then (.conflict, db)
  else
    match save now today db q.toReservation with
    | .ok (db', r) => (.created r.id, db')
    | .error .integrityError => (.conflict, db)
    | .error .validationError => (.validationFailed, db)

/-- Sequential execution of a batch of create attempts.  The slot lock and the
row-level transaction lock serialize contending attempts, so a set of
concurrent attempts on one slot executes as some sequence. -/
def runCreates (now today : Nat) : DB → List CreateRequest → List CreateResult × DB
  | db, [] => ([], db)
  | db, q :: qs =>
    let (res, db') := create now today db q
    let (rest, db'') := runCreates now today db' qs
    (res :: rest, db'')

/-- Whether a create outcome is the 201 success. -/
def isCreated : CreateResult → Bool
  | .created _ => true
  | _ => false

/-- A request whose fields pass the business validation (`_validate_dates`,
`_validate_party_size`) — slot contention aside, such a request is bookable. -/
def validRequest (today : Nat) (q : CreateRequest) : Bool :=
  validate_dates today q.toReservation && validate_party_size q.toReservation

/-! ### Slot uniqueness invariant -/

/-- Whether a row is an active reservation of slot `s`. -/
def matchesActive (s : Slot) (r : Reservation) : Bool :=
  activeStatus r.status && decide (r.slot = s)

/-- Number of active reservations stored for slot `s`. -/
def countActive (db : DB) (s : Slot) : Nat :=
  db.countP (matchesActive s)

/-- The invariant: at most one active reservation per slot. -/
def slotInvariant (db : DB) : Prop :=
  ∀ s : Slot, countActive db s ≤ 1

/-! ### Scheduled tasks (reservations/tasks.py) -/

/-- Outcome of `expire_reservation`: the returned dict, the logged-warning
return for a missing row, or an uncaught exception failing the task (the
task's `autoretry_for` covers only `OperationalError`, so a `ValidationError`
raised by `save` is not retried). -/
inductive ExpireOutcome where
  | expiredNow
  | noop (st : Status)
  | notFound
  | taskError
deriving DecidableEq, Repr

/-- Embedding of `Reservation.is_expired`: `self.expires_at and
timezone.now() >= self.expires_at`. -/
def is_expired (now : Nat) (r : Reservation) : Bool :=
  match r.expires_at with
  | none => false
  | some e => decide (e ≤ now)

/-- Embedding of the `expire_reservation` task (tasks.py lines 34-60): re-read
the row under `select_for_update`; transition to EXPIRED only when the status
is still PENDING and `is_expired` holds; missing row returns the logged
`not_found` dict. -/
def expire_reservation (now today : Nat) (db : DB) (rid : Nat) : ExpireOutcome × DB :=
  match findRes db rid with
  | none => (.notFound, db)
  | some r =>
    if r.status = .pending ∧ is_expired now r then
      match save now today db { r with status := .expired } with
      | .ok (db', _) => (.expiredNow, db')
      | .error _ => (.taskError, db)
    else (.noop r.status, db)

/-- The state transformer of one `expire_reservation` delivery. -/
def expireStep (now today rid : Nat) (db : DB) : DB :=
  (expire_reservation now today db rid).2

/-- Outcome of the `send_reminder` task: the returned dict for a sent
reminder, the `not_confirmed` no-op dict, the `not_found` return, or an
SMTP exception propagating into the task's retry machinery. -/
inductive ReminderOutcome where
  | reminderSent
  | notConfirmed
  | notFound
  | deliveryError
deriving DecidableEq, Repr

/-- Embedding of the `send_reminder` task (tasks.py lines 135-169): outcome,
resulting reservation table, and number of reminder emails sent.  `emailOk`
models whether `send_mail` succeeds or raises. -/
def send_reminder (db : DB) (emailOk : Bool) (rid : Nat) :
    ReminderOutcome × DB × Nat :=
  match findRes db rid with
  | none => (.notFound, db, 0)
  | some r =>
    if r.status = .confirmed then
      if emailOk then (.reminderSent, db, 1) else (.deliveryError, db, 0)
    else (.notConfirmed, db, 0)

/-! ### Status-update serializer (reservations/serializers.py) -/

/-- The transition table of `ReservationStatusUpdateSerializer.validate_status`
(serializers.py lines 400-417). -/
def allowedTransitions : Status → List Status
  | .pending => [.confirmed, .cancelled, .expired]
  | .confirmed => [.completed, .cancelled, .no_show]
  | .completed => []
  | .cancelled => []
  | .no_show => []
  | .expired => []

/-- Embedding of `validate_status`: without a bound instance the value passes;
with one, a target status outside the table raises a serializer
`ValidationError` (the `.error` case). -/
def validate_status (inst : Option Reservation) (value : Status) :
    Except Unit Status :=
  match inst with
  | none => .ok value
  | some r => if value ∈ allowedTransitions r.status then .ok value else .error ()

/-! ### Distributed lock (restaurants/services.py, TableReservationLock) -/

/-- A Redis value with its remaining TTL in seconds. -/
structure LockEntry where
  value : String
  ttl : Nat
deriving DecidableEq, Repr

/-- The Redis keyspace as an association list; Redis itself keeps keys unique,
so deletion by filter below agrees with single-key deletion. -/
abbrev RedisKV := List (String × LockEntry)

/-- Redis GET. -/
def kvGet (kv : RedisKV) (k : String) : Option LockEntry :=
  (kv.find? fun e => decide (e.1 = k)).map Prod.snd

/-- Redis `SET key value EX ttl NX`: create only if absent. -/
def kvSetNX (kv : RedisKV) (k v : String) (ttl : Nat) : Bool × RedisKV :=
  match kvGet kv k with
  | some _ => (false, kv)
  | none => (true, (k, ⟨v, ttl⟩) :: kv)

/-- Redis DEL of one key. -/
def kvDel (kv : RedisKV) (k : String) : RedisKV :=
  kv.filter fun e => decide (e.1 ≠ k)

/-- Redis EXPIRE: reset the TTL of a key. -/
def kvSetTTL (kv : RedisKV) (k : String) (ttl : Nat) : RedisKV :=
  kv.map fun e => if e.1 = k then (e.1, ⟨e.2.value, ttl⟩) else e

/-- The compare-and-delete Lua script run by `release` (services.py lines
100-106): delete the key only if its value equals the presented token. -/
def releaseScript (kv : RedisKV) (k v : String) : Bool × RedisKV :=
  match kvGet kv k with
  | some e => if e.value = v then (true, kvDel kv k) else (false, kv)
  | none => (false, kv)

/-- The compare-and-expire Lua script run by `extend_lock` (services.py lines
130-136): reset the expiry only if the value equals the presented token. -/
def extendScript (kv : RedisKV) (k v : String) (ttl : Nat) : Bool × RedisKV :=
  match kvGet kv k with
  | some e => if e.value = v then (true, kvSetTTL kv k ttl) else (false, kv)
  | none => (false, kv)

/-- The in-process state of a `TableReservationLock` instance. -/
structure TableReservationLock where
  lock_key : String
  timeout : Nat
  max_retries : Nat
  lock_acquired : Bool
  lock_value : String
deriving DecidableEq, Repr

/-- Retry loop of `acquire` (services.py lines 47-87), parametrized by the
remaining attempts (`fuel`, starting at `max_retries`) and the zero-based
attempt index that drives the exponential backoff `retry_delay * 2 ^ attempt`.
Returns (success, store, list of sleeps performed).  On a failed conditional
create the store is unchanged, so the re-read `current_value` is present and
the mid-loop `continue` for a concurrently expired key is unreachable; the
`redis.RedisError` reconnect path is a transient-infrastructure branch outside
the embedding. -/
def acquireAux (l : TableReservationLock) (kv : RedisKV) (d : ℚ) :
    Nat → Nat → Bool × RedisKV × List ℚ
  | _, 0 => (false, kv, [])
  | attempt, fuel + 1 =>
    match kvSetNX kv l.lock_key l.lock_value l.timeout with
    | (true, kv') => (true, kv', [])
    | (false, _) =>
      if fuel = 0 then (false, kv, [])
      else
        let rest := acquireAux l kv d (attempt + 1) fuel
        (rest.1, rest.2.1, d * 2 ^ attempt :: rest.2.2)

/-- Embedding of `acquire` (services.py lines 39-87): with no Redis client the
method returns True immediately (local fallback); otherwise it runs the retry
loop.  The store is `Option RedisKV`: `none` is the `redis_client is None`
case. -/
def acquire (l : TableReservationLock) (client : Option RedisKV) (d : ℚ) :
    Bool × Option RedisKV × List ℚ :=
  match client with
  | none => (true, none, [])
  | some kv =>
    let r := acquireAux l kv d 0 l.max_retries
    (r.1, some r.2.1, r.2.2)

/-- Embedding of `release` (services.py lines 89-121): a no-op True when the
lock was never acquired, True without touching a store when the client is
absent, otherwise the compare-and-delete script; either way `lock_acquired`
is cleared. -/
def release (l : TableReservationLock) (client : Option RedisKV) :
    Bool × TableReservationLock × Option RedisKV :=
  if l.lock_acquired = false then (true, l, client)
  else
    match client with
    | none => (true, { l with lock_acquired := false }, none)
    | some kv =>
      let r := releaseScript kv l.lock_key l.lock_value
      (r.1, { l with lock_acquired := false }, some r.2)

/-- Embedding of `extend_lock` (services.py lines 123-145): False when the
lock is not held or the client is absent, otherwise the compare-and-expire
script. -/
def extend_lock (l : TableReservationLock) (client : Option RedisKV)
    (additional_time : Nat) : Bool × Option RedisKV :=
  if l.lock_acquired = false then (false, client)
  else
    match client with
    | none => (false, none)
    | some kv =>
      let r := extendScript kv l.lock_key l.lock_value additional_time
      (r.1, some r.2)

/-- Outcome of the context-manager entry. -/
inductive EnterResult where
  | entered
  | lockAcquisitionError
deriving DecidableEq, Repr

/-- Embedding of `TableReservationLock.__enter__` (services.py lines 147-153):
a failed `acquire` raises `LockAcquisitionError`. -/
def enterLock (l : TableReservationLock) (client : Option RedisKV) (d : ℚ) :
    EnterResult × Option RedisKV :=
  let r := acquire l client d
  if r.1 then (.entered, r.2.1) else (.lockAcquisitionError, r.2.1)

/-! ### Availability cache (restaurants/services.py, check_table_availability) -/

/-- A value written to the availability cache together with its TTL. -/
structure CacheWrite where
  value : Bool
  ttl : Nat
deriving DecidableEq, Repr

/-- The store existence query inside `check_table_availability`. -/
def availabilityQuery (db : DB) (t dte tm : Nat) : Bool :=
  !(db.any fun r =>
      decide (r.table_id = t) && decide (r.reservation_date = dte) &&
      decide (r.reservation_time = tm) && activeStatus r.status)

/-- Embedding of `check_table_availability` (services.py lines 176-220).
`dbUp` models whether the store lookup succeeds or raises; `cached` is the
current cache entry for the slot's key.  Returns the boolean result and the
cache write performed (`none` = nothing written). -/
def check_table_availability (db : DB) (dbUp : Bool) (cached : Option Bool)
    (use_cache : Bool) (t dte tm : Nat) : Bool × Option CacheWrite :=
  match use_cache, cached with
  | true, some v => (v, none)
  | _, _ =>
    if dbUp then
      let available := availabilityQuery db t dte tm
      (available,
        if use_cache then some ⟨available, if available then 600 else 120⟩
        else none)
    else (false, none)

/-! ### Helper lemmas about the row store -/

theorem wf_cons {x : Reservation} {xs : DB} (h : wf (x :: xs)) :
    x.id ∉ xs.map Reservation.id ∧ wf xs := by
  simpa [wf] using h

theorem db_save_perm {db : DB} (r : Reservation) (h : wf db) :
    List.Perm (db_save db r) (r :: db.filter fun x => decide (x.id ≠ r.id)) := by
  induction db with
  | nil => simp [db_save]
  | cons x xs ih =>
    obtain ⟨hx, hxs⟩ := wf_cons h
    by_cases hid : x.id = r.id
    · have hfilter : (xs.filter fun y => !decide (y.id = r.id)) = xs := by
        apply List.filter_eq_self.mpr
        intro y hy
        have : y.id ≠ r.id := by
          intro hEq
          exact hx (hid ▸ hEq ▸ List.mem_map_of_mem Reservation.id hy)
        simpa using this
      simp [db_save, hid, hfilter]
    · have hsave : db_save (x :: xs) r = x :: db_save xs r := by simp [db_save, hid]
      have hstep : (List.filter (fun x => decide (x.id ≠ r.id)) (x :: xs)) =
          x :: xs.filter fun y => decide (y.id ≠ r.id) := by
        simp [List.filter_cons, hid]
      rw [hsave, hstep]
      exact ((ih hxs).cons x).trans (List.Perm.swap r x _)

theorem db_save_wf {db : DB} (r : Reservation) (h : wf db) : wf (db_save db r) := by
  have hperm := (db_save_perm r h).map Reservation.id
  rw [wf, hperm.nodup_iff]
  simp only [List.map_cons, List.nodup_cons]
  constructor
  · intro hmem
    obtain ⟨y, hy, hyid⟩ := List.mem_map.mp hmem
    have := (List.mem_filter.mp hy).2
    simp [hyid] at this
  · exact ((List.filter_sublist _).map Reservation.id).nodup h

theorem db_save_mem_self (db : DB) (r : Reservation) : r ∈ db_save db r := by
  induction db with
  | nil => simp [db_save]
  | cons x xs ih =>
    by_cases hid : x.id = r.id
    · simp [db_save, hid]
    · simp [db_save, hid, ih]

theorem db_save_mem_other {db : DB} {x : Reservation} (r : Reservation)
    (hx : x ∈ db) (hne : x.id ≠ r.id) : x ∈ db_save db r := by
  induction db with
  | nil => cases hx
  | cons y ys ih =>
    by_cases hid : y.id = r.id
    · rcases List.mem_cons.mp hx with rfl | hmem
      · exact absurd hid hne
      · simp [db_save, hid, hmem]
    · rcases List.mem_cons.mp hx with rfl | hmem
      · simp [db_save, hid]
      · simp [db_save, hid, ih hmem]

theorem findRes_db_save (db : DB) (r : Reservation) :
    findRes (db_save db r) r.id = some r := by
  induction db with
  | nil => simp [db_save, findRes, List.find?]
  | cons x xs ih =>
    by_cases hid : x.id = r.id
    · simp [db_save, hid, findRes, List.find?]
    · simpa [db_save, hid, findRes, List.find?] using ih

theorem findRes_mem_id {db : DB} {rid : Nat} {r : Reservation}
    (h : findRes db rid = some r) : r ∈ db ∧ r.id = rid := by
  refine ⟨List.mem_of_find?_eq_some h, ?_⟩
  have := List.find?_some h
  simpa using this

theorem validate_no_double_booking_spec {db : DB} {r : Reservation}
    (h : validate_no_double_booking db r = true) :
    ∀ x ∈ db, x.id ≠ r.id → x.slot = r.slot → activeStatus x.status = false := by
  intro x hx hne hslot
  simp only [validate_no_double_booking, Bool.not_eq_true', List.any_eq_false,
    Bool.and_eq_true, decide_eq_true_eq, not_and] at h
  have := h x hx
  by_contra hact
  simp only [Bool.not_eq_false] at hact
  exact (by simpa [hne, hslot, hact] using h x hx)

theorem setExpires_slot (now : Nat) (r : Reservation) :
    (setExpires now r).slot = r.slot := by
  unfold setExpires
  split <;> rfl

theorem setExpires_id (now : Nat) (r : Reservation) :
    (setExpires now r).id = r.id := by
  unfold setExpires
  split <;> rfl

theorem setExpires_status (now : Nat) (r : Reservation) :
    (setExpires now r).status = r.status := by
  unfold setExpires
  split <;> rfl

theorem validate_dates_setExpires (now today : Nat) (r : Reservation) :
    validate_dates today (setExpires now r) = validate_dates today r := by
  unfold setExpires
  split <;> rfl

theorem validate_party_size_setExpires (now : Nat) (r : Reservation) :
    validate_party_size (setExpires now r) = validate_party_size r := by
  unfold setExpires
  split <;> rfl

theorem db_save_invariant {db : DB} {r : Reservation} (hwf : wf db)
    (hclean : validate_no_double_booking db r = true) (hinv : slotInvariant db) :
    slotInvariant (db_save db r) := by
  intro s
  have hperm := db_save_perm r hwf
  rw [countActive, hperm.countP_eq, List.countP_cons]
  by_cases hm : matchesActive s r = true
  · have hzero : (db.filter fun x => decide (x.id ≠ r.id)).countP (matchesActive s) = 0 := by
      rw [List.countP_eq_zero]
      intro a ha
      obtain ⟨hadb, hane⟩ := List.mem_filter.mp ha
      have hane' : a.id ≠ r.id := by simpa using hane
      intro hma
      have hm' := hm
      simp only [matchesActive, Bool.and_eq_true, decide_eq_true_eq] at hma hm'
      obtain ⟨hact, hslot⟩ := hma
      obtain ⟨-, hslotr⟩ := hm'
      have hslot' : a.slot = r.slot := by rw [hslot, hslotr]
      have := validate_no_double_booking_spec hclean a hadb hane' hslot'
      rw [this] at hact
      cases hact
    rw [hzero]
    simp [hm]
  · have hle : (db.filter fun x => decide (x.id ≠ r.id)).countP (matchesActive s) ≤
        db.countP (matchesActive s) :=
      (List.filter_sublist db).countP_le _
    simp only [Bool.not_eq_true] at hm
    simp only [hm, if_false]
    exact le_trans (by simpa using hle) (hinv s)

theorem full_clean_parts {db : DB} {today : Nat} {r : Reservation}
    (h : full_clean db today r = true) :
    validate_no_double_booking db r = true ∧ validate_dates today r = true ∧
      validate_party_size r = true := by
  simpa [full_clean, Bool.and_eq_true, and_assoc] using h

theorem save_ok_shape {now today : Nat} {db db' : DB} {r0 r' : Reservation}
    (hok : save now today db r0 = .ok (db', r')) :
    r' = setExpires now r0 ∧ db' = db_save db r' ∧
      full_clean db today r' = true ∧ violatesUniqueConstraint db r' = false := by
  unfold save at hok
  by_cases hclean : full_clean db today (setExpires now r0)
  · by_cases hviol : violatesUniqueConstraint db (setExpires now r0)
    · simp [hclean, hviol] at hok
    · simp only [hclean, if_true, hviol, Bool.false_eq_true, if_false] at hok
      obtain ⟨hdb, hr⟩ := Prod.mk.injEq .. ▸ (Except.ok.injEq _ _ ▸ hok)
      refine ⟨hr.symm, ?_, ?_, ?_⟩ <;> simp [← hr, ← hdb, hclean, ]
      · exact Bool.not_eq_true _ ▸ hviol
  · simp [hclean] at hok

theorem save_preserves {now today : Nat} {db db' : DB} {r0 r' : Reservation}
    (hwf : wf db) (hinv : slotInvariant db)
    (hok : save now today db r0 = .ok (db', r')) :
    slotInvariant db' ∧ wf db' := by
  obtain ⟨-, hdb, hclean, -⟩ := save_ok_shape hok
  obtain ⟨hnodouble, -, -⟩ := full_clean_parts hclean
  subst hdb
  exact ⟨db_save_invariant hwf hnodouble hinv, db_save_wf _ hwf⟩

theorem create_preserves {now today : Nat} {db : DB} {q : CreateRequest}
    (hwf : wf db) (hinv : slotInvariant db) :
    slotInvariant (create now today db q).2 ∧ wf (create now today db q).2 := by
  unfold create
  by_cases hact : hasActiveOnSlot db q.slot
  · simp [hact, hinv, hwf]
  · simp only [hact, Bool.false_eq_true, if_false]
    cases hsave : save now today db q.toReservation with
    | ok p =>
      obtain ⟨db', r'⟩ := p
      simpa using save_preserves hwf hinv hsave
    | error e => cases e <;> simp [hinv, hwf]

theorem hasActiveOnSlot_spec {db : DB} {s : Slot} (h : hasActiveOnSlot db s = false) :
    ∀ x ∈ db, x.slot = s → activeStatus x.status = false := by
  intro x hx hslot
  simp only [hasActiveOnSlot, List.any_eq_false, Bool.and_eq_true, decide_eq_true_eq,
    not_and] at h
  by_contra hact
  simp only [Bool.not_eq_false] at hact
  exact (by simpa [hslot, hact] using h x hx)

theorem create_conflict_of_active {now today : Nat} {db : DB} {q : CreateRequest}
    (h : hasActiveOnSlot db q.slot = true) :
    create now today db q = (.conflict, db) := by
  simp [create, h]

theorem create_succeeds_of_free {now today : Nat} {db : DB} {q : CreateRequest}
    (hfree : hasActiveOnSlot db q.slot = false)
    (hvalid : validRequest today q = true) :
    ∃ db', create now today db q = (.created q.id, db') ∧
      hasActiveOnSlot db' q.slot = true := by
  have hq : q.toReservation.slot = q.slot := rfl
  set r := setExpires now q.toReservation with hrdef
  have hrslot : r.slot = q.slot := by rw [hrdef, setExpires_slot, hq]
  have hrstatus : r.status = .pending := by rw [hrdef, setExpires_status]; rfl
  have hnoactive : ∀ x ∈ db, ¬(decide (x.id ≠ r.id) && decide (x.slot = r.slot) &&
      activeStatus x.status) = true := by
    intro x hx hcon
    simp only [Bool.and_eq_true, decide_eq_true_eq] at hcon
    obtain ⟨⟨-, hslot⟩, hact⟩ := hcon
    have := hasActiveOnSlot_spec hfree x hx (hslot.trans hrslot)
    rw [this] at hact
    cases hact
  have hnodouble : validate_no_double_booking db r = true := by
    simp only [validate_no_double_booking, Bool.not_eq_true']
    exact List.any_eq_false.mpr hnoactive
  have hvd : validate_dates today r = true := by
    rw [hrdef, validate_dates_setExpires]
    exact (Bool.and_eq_true _ _ ▸ hvalid).1
  have hvp : validate_party_size r = true := by
    rw [hrdef, validate_party_size_setExpires]
    exact (Bool.and_eq_true _ _ ▸ hvalid).2
  have hclean : full_clean db today r = true := by
    simp [full_clean, hnodouble, hvd, hvp]
  have hviol : violatesUniqueConstraint db r = false := by
    simp only [violatesUniqueConstraint, Bool.and_eq_false_iff]
    exact Or.inr (List.any_eq_false.mpr hnoactive)
  have hsave : save now today db q.toReservation = .ok (db_save db r, r) := by
    simp only [save, ← hrdef, hclean, hviol]
    simp
  refine ⟨db_save db r, ?_, ?_⟩
  · have hrid : r.id = q.id := by rw [hrdef, setExpires_id]; rfl
    simp [create, hfree, hsave, hrid]
  · simp only [hasActiveOnSlot, List.any_eq_true]
    exact ⟨r, db_save_mem_self db r, by simp [hrslot, hrstatus, activeStatus]⟩

theorem runCreates_all_conflict {now today : Nat} {s : Slot} :
    ∀ {qs : List CreateRequest} {db : DB}, (∀ q ∈ qs, q.slot = s) →
      hasActiveOnSlot db s = true →
      runCreates now today db qs = (qs.map fun _ => .conflict, db) := by
  intro qs
  induction qs with
  | nil => intro db _ _; simp [runCreates]
  | cons q qs ih =>
    intro db hs hact
    have hq : q.slot = s := hs q (List.mem_cons_self q qs)
    have hcreate := @create_conflict_of_active now today db q (hq ▸ hact)
    have hrest := ih (fun p hp => hs p (List.mem_cons_of_mem q hp)) hact
    simp [runCreates, hcreate, hrest]

theorem countP_conflicts (l : List CreateRequest) :
    ((l.map fun _ => CreateResult.conflict).countP isCreated) = 0 := by
  rw [List.countP_eq_zero]
  intro a ha
  obtain ⟨-, -, rfl⟩ := List.mem_map.mp ha
  simp [isCreated]

theorem runCreates_cons (now today : Nat) (db : DB) (q : CreateRequest)
    (qs : List CreateRequest) :
    runCreates now today db (q :: qs) =
      ((create now today db q).1 ::
          (runCreates now today (create now today db q).2 qs).1,
        (runCreates now today (create now today db q).2 qs).2) := rfl

theorem runCreates_mutex {now today : Nat} {s : Slot} {qs : List CreateRequest} {db : DB}
    (hq : ∀ q ∈ qs, q.slot = s ∧ validRequest today q = true) :
    ((runCreates now today db qs).1.countP isCreated ≤ 1) ∧
      (∀ res ∈ (runCreates now today db qs).1,
        isCreated res = true ∨ res = .conflict) := by
  cases qs with
  | nil => simp [runCreates]
  | cons q qs =>
    obtain ⟨hslot, hvalid⟩ := hq q (List.mem_cons_self q qs)
    have hrestslot : ∀ p ∈ qs, p.slot = s := fun p hp =>
      (hq p (List.mem_cons_of_mem q hp)).1
    by_cases hact : hasActiveOnSlot db s
    · have hall := @runCreates_all_conflict now today s (q :: qs) db
        (fun p hp => (hq p hp).1) hact
      rw [hall]
      refine ⟨?_, ?_⟩
      · rw [countP_conflicts]
        exact Nat.zero_le 1
      · intro res hres
        obtain ⟨-, -, rfl⟩ := List.mem_map.mp hres
        exact Or.inr rfl
    · simp only [Bool.not_eq_true] at hact
      obtain ⟨db', hcreate, hactive⟩ :=
        @create_succeeds_of_free now today db q (hslot ▸ hact) hvalid
      have hrest := @runCreates_all_conflict now today s qs db'
        hrestslot (hslot ▸ hactive)
      rw [runCreates_cons, hcreate]
      simp only [Prod.fst, Prod.snd]
      rw [hrest]
      refine ⟨?_, ?_⟩
      · simp only [List.countP_cons, countP_conflicts, isCreated]
        simp
      · intro res hres
        rcases List.mem_cons.mp hres with rfl | hmem
        · exact Or.inl rfl
        · obtain ⟨-, -, rfl⟩ := List.mem_map.mp hmem
          exact Or.inr rfl

/-! ### Helper lemmas about the scheduled tasks -/

theorem setExpires_of_not_pending {r : Reservation} (now : Nat)
    (h : r.status ≠ .pending) : setExpires now r = r := by
  simp [setExpires, h]

theorem save_ok_of_valid {now today : Nat} {db : DB} {r0 : Reservation}
    (h1 : full_clean db today (setExpires now r0) = true)
    (h2 : violatesUniqueConstraint db (setExpires now r0) = false) :
    save now today db r0 = .ok (db_save db (setExpires now r0), setExpires now r0) := by
  simp only [save, h1, h2]
  simp

theorem save_error_of_invalid {now today : Nat} {db : DB} {r0 : Reservation}
    (h : full_clean db today (setExpires now r0) = false) :
    save now today db r0 = .error .validationError := by
  simp only [save, h]
  simp

theorem expire_unchanged {now today rid : Nat} {db db' : DB} {o : ExpireOutcome}
    (h : expire_reservation now today db rid = (o, db')) (ho : o ≠ .expiredNow) :
    db' = db := by
  cases hfind : findRes db rid with
  | none =>
    simp only [expire_reservation, hfind] at h
    cases h
    rfl
  | some r =>
    simp only [expire_reservation, hfind] at h
    by_cases hcond : r.status = .pending ∧ is_expired now r = true
    · rw [if_pos hcond] at h
      cases hsave : save now today db { r with status := Status.expired } with
      | ok p =>
        rw [hsave] at h
        cases h
        exact absurd rfl ho
      | error e =>
        rw [hsave] at h
        cases h
        rfl
    · rw [if_neg hcond] at h
      cases h
      rfl

theorem expire_after_expired {now today rid : Nat} {db db' : DB}
    (h : expire_reservation now today db rid = (.expiredNow, db')) :
    ∀ now' today' : Nat,
      expire_reservation now' today' db' rid = (.noop .expired, db') := by
  intro now' today'
  cases hfind : findRes db rid with
  | none =>
    simp only [expire_reservation, hfind] at h
    cases h
  | some r =>
    simp only [expire_reservation, hfind] at h
    by_cases hcond : r.status = .pending ∧ is_expired now r = true
    · rw [if_pos hcond] at h
      cases hsave : save now today db { r with status := Status.expired } with
      | ok p =>
        rw [hsave] at h
        obtain ⟨dbq, rq⟩ := p
        obtain ⟨hrq, hdbq, -, -⟩ := save_ok_shape hsave
        have hrq' : rq = { r with status := Status.expired } := by
          rw [hrq, setExpires_of_not_pending]
          intro hcontra
          cases hcontra
        have hdb' : db' = db_save db rq := by
          cases h
          exact hdbq
        have hrid : r.id = rid := (findRes_mem_id hfind).2
        have hfind' : findRes db' rid = some rq := by
          rw [hdb']
          have := findRes_db_save db rq
          rw [hrq', ] at this ⊢
          simpa [← hrid] using findRes_db_save db { r with status := Status.expired }
        unfold expire_reservation
        rw [hfind', hrq']
        simp [is_expired]
      | error e =>
        rw [hsave] at h
        cases h
    · rw [if_neg hcond] at h
      cases h

theorem expireStep_fixed (now today rid : Nat) (db : DB) :
    expireStep now today rid (expireStep now today rid db) =
      expireStep now today rid db := by
  rcases houtcome : expire_reservation now today db rid with ⟨o, db'⟩
  have hdb' : expireStep now today rid db = db' := by
    simp [expireStep, houtcome]
  rw [hdb']
  cases o with
  | expiredNow =>
    have := expire_after_expired houtcome now today
    simp [expireStep, this]
  | noop st =>
    have := expire_unchanged houtcome (by intro hcontra; cases hcontra)
    rw [this] at hdb' ⊢
    exact hdb'
  | notFound =>
    have := expire_unchanged houtcome (by intro hcontra; cases hcontra)
    rw [this] at hdb' ⊢
    exact hdb'
  | taskError =>
    have := expire_unchanged houtcome (by intro hcontra; cases hcontra)
    rw [this] at hdb' ⊢
    exact hdb'

theorem expireStep_iterate (now today rid : Nat) (db : DB) :
    ∀ n : Nat, 1 ≤ n →
      (expireStep now today rid)^[n] db = expireStep now today rid db := by
  intro n
  induction n with
  | zero => intro h; cases h
  | succ m ih =>
    intro _
    by_cases hm : 1 ≤ m
    · rw [Function.iterate_succ_apply', ih hm, expireStep_fixed]
    · have : m = 0 := by omega
      subst this
      simp

/-! ### Helper lemmas about the distributed lock -/

theorem kvGet_kvDel (kv : RedisKV) (k : String) : kvGet (kvDel kv k) k = none := by
  unfold kvGet
  rw [List.find?_eq_none.mpr]
  · rfl
  · intro x hx
    have := (List.mem_filter.mp hx).2
    simpa using this

theorem releaseScript_wrong_token {kv : RedisKV} {k v : String} {e : LockEntry}
    (hget : kvGet kv k = some e) (hne : e.value ≠ v) :
    releaseScript kv k v = (false, kv) := by
  simp [releaseScript, hget, hne]

theorem extendScript_wrong_token {kv : RedisKV} {k v : String} {ttl : Nat} {e : LockEntry}
    (hget : kvGet kv k = some e) (hne : e.value ≠ v) :
    extendScript kv k v ttl = (false, kv) := by
  simp [extendScript, hget, hne]

theorem releaseScript_true_shape {kv kv' : RedisKV} {k v : String}
    (h : releaseScript kv k v = (true, kv')) :
    (∃ e, kvGet kv k = some e ∧ e.value = v) ∧ kvGet kv' k = none := by
  cases hget : kvGet kv k with
  | none =>
    simp only [releaseScript, hget] at h
    cases h
  | some e =>
    simp only [releaseScript, hget] at h
    by_cases hval : e.value = v
    · rw [if_pos hval] at h
      obtain ⟨-, hkv⟩ := Prod.mk.injEq .. ▸ h
      exact ⟨⟨e, rfl, hval⟩, hkv ▸ kvGet_kvDel kv k⟩
    · rw [if_neg hval] at h
      cases h

theorem acquireAux_step {l : TableReservationLock} {kv : RedisKV} {e : LockEntry}
    (h : kvGet kv l.lock_key = some e) (d : ℚ) (attempt f : Nat) :
    acquireAux l kv d attempt (f + 1 + 1) =
      ((acquireAux l kv d (attempt + 1) (f + 1)).1,
        (acquireAux l kv d (attempt + 1) (f + 1)).2.1,
        d * 2 ^ attempt :: (acquireAux l kv d (attempt + 1) (f + 1)).2.2) := by
  conv_lhs => rw [acquireAux]
  simp only [kvSetNX, h]
  rw [if_neg (Nat.succ_ne_zero f)]

theorem acquireAux_held {l : TableReservationLock} {kv : RedisKV} {e : LockEntry}
    (h : kvGet kv l.lock_key = some e) (d : ℚ) :
    ∀ fuel attempt : Nat,
      acquireAux l kv d attempt (fuel + 1) =
        (false, kv, (List.range fuel).map fun i => d * 2 ^ (attempt + i)) := by
  intro fuel
  induction fuel with
  | zero =>
    intro attempt
    simp [acquireAux, kvSetNX, h]
  | succ f ih =>
    intro attempt
    have hlist : (List.range (f + 1)).map (fun i => d * 2 ^ (attempt + i)) =
        d * 2 ^ attempt :: (List.range f).map fun i => d * 2 ^ (attempt + 1 + i) := by
      rw [List.range_succ_eq_map, List.map_cons, List.map_map]
      refine congrArg₂ _ (by rw [Nat.add_zero]) ?_
      apply List.map_congr_left
      intro i _
      have : attempt + (i + 1) = attempt + 1 + i := by omega
      simp [Function.comp, Nat.succ_eq_add_one, this]
    rw [acquireAux_step h d attempt f, ih (attempt + 1), hlist]

theorem acquire_held {l : TableReservationLock} {kv : RedisKV} {e : LockEntry}
    (h : kvGet kv l.lock_key = some e) (hn : 1 ≤ l.max_retries) (d : ℚ) :
    acquire l (some kv) d =
      (false, some kv, (List.range (l.max_retries - 1)).map fun i => d * 2 ^ i) := by
  obtain ⟨m, hm⟩ : ∃ m, l.max_retries = m + 1 := ⟨l.max_retries - 1, by omega⟩
  simp only [acquire, hm, acquireAux_held h d m 0, Nat.add_sub_cancel]
  simp

theorem acquire_free {l : TableReservationLock} {kv : RedisKV}
    (h : kvGet kv l.lock_key = none) (hn : 1 ≤ l.max_retries) (d : ℚ) :
    acquire l (some kv) d =
      (true, some ((l.lock_key, ⟨l.lock_value, l.timeout⟩) :: kv), []) := by
  obtain ⟨m, hm⟩ : ∃ m, l.max_retries = m + 1 := ⟨l.max_retries - 1, by omega⟩
  simp [acquire, hm, acquireAux, kvSetNX, h]

theorem sum_geom (d : ℚ) :
    ∀ k : Nat, (((List.range k).map fun i => d * 2 ^ i).sum) = d * (2 ^ k - 1) := by
  intro k
  induction k with
  | zero => simp
  | succ n ih =>
    rw [List.range_succ, List.map_append, List.sum_append, ih]
    simp [pow_succ]
    ring

theorem acquire_sleep_bounded (l : TableReservationLock) (kv : RedisKV) (d : ℚ)
    (hd : 0 ≤ d) :
    ((acquire l (some kv) d).2.2).sum ≤ d * (2 ^ l.max_retries - 1) := by
  have hone : (1 : ℚ) ≤ 2 ^ l.max_retries := by
    exact_mod_cast Nat.one_le_two_pow
  have hpow : (0 : ℚ) ≤ d * (2 ^ l.max_retries - 1) := by
    apply mul_nonneg hd
    linarith
  by_cases hn : 1 ≤ l.max_retries
  · cases hget : kvGet kv l.lock_key with
    | none =>
      rw [acquire_free hget hn d]
      simpa using hpow
    | some e =>
      rw [acquire_held hget hn d]
      rw [sum_geom]
      have hmono : (2 : ℚ) ^ (l.max_retries - 1) ≤ 2 ^ l.max_retries := by
        apply pow_le_pow_right₀ (by norm_num)
        omega
      exact mul_le_mul_of_nonneg_left (sub_le_sub_right hmono 1) hd
  · have hzero : l.max_retries = 0 := by omega
    simp [acquire, hzero, acquireAux]

/-! ### Concrete instances used by witnesses and counterexamples -/

/-- A pending reservation for table 5, day 100, 19:00, expiring at 115. -/
def exPending : Reservation :=
  { id := 1, table_id := 5, reservation_date := 100, reservation_time := 1140,
    party_size := 2, table_capacity := 4, status := .pending, expires_at := some 115 }

/-- The same reservation after a cancellation. -/
def exCancelled : Reservation :=
  { exPending with status := .cancelled }

/-- The cancelled reservation with the status field set back to CONFIRMED. -/
def exCancelledConfirmed : Reservation :=
  { exCancelled with status := .confirmed }

/-- A pending reservation booked for day 100 at 19:00 whose pending window
(created 21:45, expiring 22:00 on day 100 = minute 145320) is processed only
after midnight: at minute 145460 the current day is already 101. -/
def exPendingLate : Reservation :=
  { id := 3, table_id := 5, reservation_date := 100, reservation_time := 1140,
    party_size := 2, table_capacity := 4, status := .pending,
    expires_at := some 145320 }

/-- A create request for the slot of `exPending`. -/
def exReq1 : CreateRequest :=
  { id := 1, table_id := 5, reservation_date := 100, reservation_time := 1140,
    party_size := 2, table_capacity := 4 }

/-- A second, contending create request for the same slot. -/
def exReq2 : CreateRequest := { exReq1 with id := 2, party_size := 3 }

/-- The slot both requests contend for. -/
def exSlot : Slot := ⟨5, 100, 1140⟩

/-- A canonical lock key for that slot. -/
def exLockKey : String := "table_lock:5:2025-09-15:19:00"

/-- A lock instance with the view's creation parameters. -/
def exLock : TableReservationLock :=
  { lock_key := exLockKey, timeout := 30, max_retries := 10,
    lock_acquired := false, lock_value := "owner-a" }

/-- The same lock instance after a successful acquisition. -/
def exLockHeld : TableReservationLock := { exLock with lock_acquired := true }

/-- A lock entry held by a different owner token. -/
def exHeldEntry : LockEntry := ⟨"owner-b", 30⟩

/-- A Redis keyspace in which the slot's lock key is held by that owner. -/
def exHeldKV : RedisKV := [(exLockKey, exHeldEntry)]

/-! ### The claims -/

/-- C1: Slot uniqueness invariant — for every (table, date, time) slot, at
most one reservation with status in {PENDING, CONFIRMED} exists.  Every
`Reservation.save` (creation and every status transition, via the model
validation and the storage uniqueness constraint) preserves the invariant,
the orchestrator's `create` preserves it, and of any batch of create attempts
on one slot at most one succeeds while every other outcome is Conflict. -/
theorem C1_slot_uniqueness :
    (∀ now today : Nat, ∀ db db' : DB, ∀ r0 r' : Reservation,
        wf db → slotInvariant db → save now today db r0 = .ok (db', r') →
        slotInvariant db' ∧ wf db') ∧
    (∀ now today : Nat, ∀ db : DB, ∀ q : CreateRequest,
        wf db → slotInvariant db →
        slotInvariant (create now today db q).2 ∧ wf (create now today db q).2) ∧
    (∀ now today : Nat, ∀ s : Slot, ∀ db : DB, ∀ qs : List CreateRequest,
        (∀ q ∈ qs, q.slot = s ∧ validRequest today q = true) →
        ((runCreates now today db qs).1.countP isCreated ≤ 1 ∧
          ∀ res ∈ (runCreates now today db qs).1,
            isCreated res = true ∨ res = .conflict)) :=
  ⟨fun _ _ _ _ _ _ hwf hinv hok => save_preserves hwf hinv hok,
   fun _ _ _ _ hwf hinv => create_preserves hwf hinv,
   fun _ _ _ _ _ hq => runCreates_mutex hq⟩

/-- Witness for C1 at concrete inputs: a save into the empty store, a create
into the empty store, and a two-request contention on one slot. -/
theorem C1_slot_uniqueness_witness :
    (slotInvariant [exPending] ∧ wf [exPending]) ∧
    (slotInvariant (create 0 100 [] exReq1).2 ∧ wf (create 0 100 [] exReq1).2) ∧
    ((runCreates 0 100 [] [exReq1, exReq2]).1.countP isCreated ≤ 1 ∧
      ∀ res ∈ (runCreates 0 100 [] [exReq1, exReq2]).1,
        isCreated res = true ∨ res = .conflict) := by
  have hwfnil : wf ([] : DB) := by simp [wf]
  have hinvnil : slotInvariant ([] : DB) := by
    intro s
    simp [countActive]
  refine ⟨?_, ?_, ?_⟩
  · exact C1_slot_uniqueness.1 0 100 [] [exPending] exPending exPending
      hwfnil hinvnil rfl
  · exact C1_slot_uniqueness.2.1 0 100 [] exReq1 hwfnil hinvnil
  · exact C1_slot_uniqueness.2.2 0 100 exSlot [] [exReq1, exReq2] (by decide)

/-- C2 counterexample: the store itself rejects no transition.  Saving the
CANCELLED reservation with its status set to CONFIRMED — a transition outside
the table — succeeds, returns no error of any kind, and changes the stored
status, contradicting the claim that the store rejects it with an
`InvalidTransition` error and leaves the status unchanged. -/
theorem C2_counterexample :
    save 0 100 [exCancelled] exCancelledConfirmed =
      .ok ([exCancelledConfirmed], exCancelledConfirmed) ∧
    exCancelled.status = Status.cancelled ∧
    exCancelledConfirmed.status = Status.confirmed := by
  refine ⟨rfl, rfl, rfl⟩

/-- C2 (amended): the transition table is enforced only by the status-update
serializer at the API boundary, which rejects any transition outside the
table with a serializer ValidationError; the store's `save` performs no
transition-table check and accepts any status value that passes model
validation and the uniqueness constraint. -/
theorem C2_transition_table_location :
    (∀ r : Reservation, ∀ tgt : Status, tgt ∉ allowedTransitions r.status →
        validate_status (some r) tgt = .error ()) ∧
    (∀ r : Reservation, ∀ tgt : Status, tgt ∈ allowedTransitions r.status →
        validate_status (some r) tgt = .ok tgt) ∧
    (∀ now today : Nat, ∀ db : DB, ∀ r0 : Reservation,
        full_clean db today (setExpires now r0) = true →
        violatesUniqueConstraint db (setExpires now r0) = false →
        save now today db r0 =
          .ok (db_save db (setExpires now r0), setExpires now r0)) := by
  refine ⟨?_, ?_, ?_⟩
  · intro r tgt h
    simp [validate_status, h]
  · intro r tgt h
    simp [validate_status, h]
  · intro now today db r0 h1 h2
    exact save_ok_of_valid h1 h2

/-- Witness for C2's amended claim: the serializer rejects CANCELLED to
CONFIRMED and accepts PENDING to CONFIRMED, and a concrete valid save goes
through the store with no transition check. -/
theorem C2_transition_table_location_witness :
    validate_status (some exCancelled) Status.confirmed = .error () ∧
    validate_status (some exPending) Status.confirmed = .ok Status.confirmed ∧
    save 5 100 [] exPending = .ok ([exPending], exPending) := by
  refine ⟨C2_transition_table_location.1 exCancelled .confirmed (by decide),
    C2_transition_table_location.2.1 exPending .confirmed (by decide), ?_⟩
  have h := C2_transition_table_location.2.2 5 100 [] exPending
    (by decide) (by decide)
  have hset : setExpires 5 exPending = exPending := rfl
  rw [hset] at h
  exact h

/-- C3 counterexample: the expiration job does not transition in every
PENDING-and-deadline-passed state.  The example row is PENDING and its
`expires_at` (22:00 of day 100) is past at minute 145460, but the execution
day is already 101, so the `full_clean` re-run inside `save` fails the
no-past-dates rule: the task raises (an error outcome outside the retried
class) and the row keeps status PENDING, contradicting the claimed "if and
only if". -/
theorem C3_counterexample :
    exPendingLate.status = Status.pending ∧
    is_expired 145460 exPendingLate = true ∧
    expire_reservation 145460 101 [exPendingLate] 3 =
      (.taskError, [exPendingLate]) ∧
    findRes [exPendingLate] 3 = some exPendingLate := by
  exact ⟨rfl, rfl, rfl, rfl⟩

/-- C3 (amended): the job re-reads the row and transitions it to EXPIRED
exactly when the status is still PENDING, `expires_at` has been reached (a
null `expires_at` never counts as reached) and the row still passes model
validation — `save` re-runs `full_clean`, so e.g. a reservation date already
in the past aborts the transition with a `ValidationError` and leaves the row
unchanged; when status or deadline fail the row is unchanged with a no-op
outcome; a non-existent id returns the logged `not_found` outcome without
retry. -/
theorem C3_expiration_postcondition :
    ∀ now today : Nat, ∀ db : DB, ∀ rid : Nat,
      (findRes db rid = none →
        expire_reservation now today db rid = (.notFound, db)) ∧
      (∀ r : Reservation, findRes db rid = some r →
        (¬(r.status = .pending ∧ is_expired now r = true) →
          expire_reservation now today db rid = (.noop r.status, db)) ∧
        (r.status = .pending → is_expired now r = true →
          full_clean db today { r with status := Status.expired } = false →
          expire_reservation now today db rid = (.taskError, db)) ∧
        (r.status = .pending → is_expired now r = true →
          full_clean db today { r with status := Status.expired } = true →
          expire_reservation now today db rid =
            (.expiredNow, db_save db { r with status := Status.expired }) ∧
          findRes (db_save db { r with status := Status.expired }) rid =
            some { r with status := Status.expired } ∧
          ∀ x ∈ db, x.id ≠ rid →
            x ∈ db_save db { r with status := Status.expired })) := by
  intro now today db rid
  constructor
  · intro hnone
    simp [expire_reservation, hnone]
  · intro r hfind
    refine ⟨?_, ?_, ?_⟩
    · intro hnot
      simp only [expire_reservation, hfind]
      rw [if_neg hnot]
    · intro hpend hexp hbad
      have hset : setExpires now { r with status := Status.expired } =
          { r with status := Status.expired } :=
        setExpires_of_not_pending now (by intro hc; cases hc)
      have hsave : save now today db { r with status := Status.expired } =
          .error .validationError :=
        save_error_of_invalid (by rw [hset]; exact hbad)
      simp only [expire_reservation, hfind]
      rw [if_pos ⟨hpend, hexp⟩, hsave]
    · intro hpend hexp hclean
      have hrid : r.id = rid := (findRes_mem_id hfind).2
      have hset : setExpires now { r with status := Status.expired } =
          { r with status := Status.expired } :=
        setExpires_of_not_pending now (by intro hc; cases hc)
      have hviol : violatesUniqueConstraint db { r with status := Status.expired } =
          false := by
        simp [violatesUniqueConstraint, activeStatus]
      have hsave := @save_ok_of_valid now today db { r with status := Status.expired }
        (by rw [hset]; exact hclean) (by rw [hset]; exact hviol)
      rw [hset] at hsave
      refine ⟨?_, ?_, ?_⟩
      · simp only [expire_reservation, hfind]
        rw [if_pos ⟨hpend, hexp⟩, hsave]
      · have hf := findRes_db_save db { r with status := Status.expired }
        simpa [hrid] using hf
      · intro x hx hne
        have hne' : x.id ≠ r.id := by rw [hrid]; exact hne
        exact db_save_mem_other _ hx hne'

/-- Witness for C3 at concrete inputs: the pending example reservation is
expired once `now` passes 115, is untouched before that, and a missing id
yields the not-found outcome. -/
theorem C3_expiration_postcondition_witness :
    expire_reservation 120 100 [exPending] 1 =
      (.expiredNow, db_save [exPending] { exPending with status := Status.expired }) ∧
    expire_reservation 100 100 [exPending] 1 = (.noop Status.pending, [exPending]) ∧
    expire_reservation 120 100 [exPending] 2 = (.notFound, [exPending]) ∧
    expire_reservation 145460 101 [exPendingLate] 3 =
      (.taskError, [exPendingLate]) := by
  refine ⟨?_, ?_, ?_, ?_⟩
  · exact ((C3_expiration_postcondition 120 100 [exPending] 1).2 exPending
      rfl).2.2 rfl rfl rfl |>.1
  · exact ((C3_expiration_postcondition 100 100 [exPending] 1).2 exPending
      rfl).1 (by decide)
  · exact (C3_expiration_postcondition 120 100 [exPending] 2).1 rfl
  · exact ((C3_expiration_postcondition 145460 101 [exPendingLate] 3).2
      exPendingLate rfl).2.1 rfl rfl rfl

/-- C4: Expiration job idempotence — iterating the job n ≥ 1 times at one
instant leaves exactly the state after the first execution, and once an
execution has performed the transition, every later delivery (at any later
clock reading) returns the error-free no-op outcome and performs no second
transition. -/
theorem C4_expiration_idempotent :
    ∀ now today rid : Nat, ∀ db : DB,
      (∀ n : Nat, 1 ≤ n →
        (expireStep now today rid)^[n] db = expireStep now today rid db) ∧
      (∀ db' : DB, expire_reservation now today db rid = (.expiredNow, db') →
        ∀ now' today' : Nat,
          expire_reservation now' today' db' rid = (.noop Status.expired, db')) := by
  intro now today rid db
  exact ⟨expireStep_iterate now today rid db,
    fun db' h now' today' => expire_after_expired h now' today'⟩

/-- Witness for C4 at concrete inputs: three deliveries collapse to one, and
a later delivery after the transition is the expired no-op. -/
theorem C4_expiration_idempotent_witness :
    (expireStep 120 100 1)^[3] [exPending] = expireStep 120 100 1 [exPending] ∧
    expire_reservation 125 101 (expireStep 120 100 1 [exPending]) 1 =
      (.noop Status.expired, expireStep 120 100 1 [exPending]) := by
  refine ⟨(C4_expiration_idempotent 120 100 1 [exPending]).1 3 (by norm_num), ?_⟩
  exact (C4_expiration_idempotent 120 100 1 [exPending]).2
    (expireStep 120 100 1 [exPending]) rfl 125 101

/-- C5: Lock ownership — the compare-and-delete and compare-and-expire
scripts presented a token different from the stored one delete nothing,
reset no expiry and return false, both at script level and through the
`release` / `extend_lock` wrappers; and `release` returns true (deleting the
key) only when the stored value equals the presented token. -/
theorem C5_lock_ownership :
    (∀ kv : RedisKV, ∀ k A B : String, ∀ ttl : Nat, ∀ e : LockEntry,
        kvGet kv k = some e → e.value = A → B ≠ A →
        releaseScript kv k B = (false, kv) ∧ extendScript kv k B ttl = (false, kv)) ∧
    (∀ kv kv' : RedisKV, ∀ k v : String, releaseScript kv k v = (true, kv') →
        (∃ e, kvGet kv k = some e ∧ e.value = v) ∧ kvGet kv' k = none) ∧
    (∀ l : TableReservationLock, ∀ kv : RedisKV, ∀ ttl : Nat, ∀ e : LockEntry,
        l.lock_acquired = true → kvGet kv l.lock_key = some e →
        e.value ≠ l.lock_value →
        (release l (some kv)).1 = false ∧ (release l (some kv)).2.2 = some kv ∧
        (extend_lock l (some kv) ttl).1 = false ∧
        (extend_lock l (some kv) ttl).2 = some kv) := by
  refine ⟨?_, ?_, ?_⟩
  · intro kv k A B ttl e hget hA hBA
    have hne : e.value ≠ B := by
      rw [hA]
      intro hc
      exact hBA hc.symm
    exact ⟨releaseScript_wrong_token hget hne, extendScript_wrong_token hget hne⟩
  · intro kv kv' k v h
    exact releaseScript_true_shape h
  · intro l kv ttl e hacq hget hne
    have hrel := releaseScript_wrong_token hget hne
    have hext := @extendScript_wrong_token kv l.lock_key l.lock_value ttl e hget hne
    refine ⟨?_, ?_, ?_, ?_⟩ <;> simp [release, extend_lock, hacq, hrel, hext]

/-- Witness for C5 at concrete inputs: a key held by owner-b is refused to
presenter owner-a, at script level and through the wrappers. -/
theorem C5_lock_ownership_witness :
    (releaseScript exHeldKV exLockKey "owner-a" = (false, exHeldKV) ∧
      extendScript exHeldKV exLockKey "owner-a" 30 = (false, exHeldKV)) ∧
    ((release exLockHeld (some exHeldKV)).1 = false ∧
      (release exLockHeld (some exHeldKV)).2.2 = some exHeldKV) := by
  refine ⟨C5_lock_ownership.1 exHeldKV exLockKey "owner-b" "owner-a" 30 exHeldEntry
    rfl rfl (by decide), ?_⟩
  have h := C5_lock_ownership.2.2 exLockHeld exHeldKV 30 exHeldEntry rfl rfl
    (by decide)
  exact ⟨h.1, h.2.1⟩


/-- C6 counterexample: the claim's retry policy does not match `acquire`.
On a concrete held key with the view's parameters (timeout 30 used only as
the key TTL) and retry_delay 1, the ten attempts sleep exactly the
deterministic jitter-free sequence 1, 2, ..., 256 seconds, totalling 511
seconds — far beyond the 30-second value the claim takes for a wall-clock
bound — before `acquire` gives up. -/
theorem C6_counterexample :
    (acquire exLock (some exHeldKV) 1).1 = false ∧
    (acquire exLock (some exHeldKV) 1).2.2 =
      [1, 2, 4, 8, 16, 32, 64, 128, 256] ∧
    ((acquire exLock (some exHeldKV) 1).2.2).sum = 511 ∧
    exLock.timeout = 30 ∧ (30 : ℚ) < 511 ∧
    (enterLock exLock (some exHeldKV) 1).1 = .lockAcquisitionError := by
  have hacq := @acquire_held exLock exHeldKV exHeldEntry rfl (by decide) 1
  have hlist : ((List.range (exLock.max_retries - 1)).map fun i => (1 : ℚ) * 2 ^ i) =
      [1, 2, 4, 8, 16, 32, 64, 128, 256] := by
    norm_num [exLock, List.range_succ]
  rw [hlist] at hacq
  refine ⟨by rw [hacq], by rw [hacq], by rw [hacq]; norm_num, rfl, by norm_num, ?_⟩
  simp [enterLock, hacq]

/-- C6 (amended): `acquire` retries with deterministic exponential backoff
`retry_delay * 2 ^ attempt` and no jitter, bounded only by the caller-supplied
attempt count `max_retries` — the `timeout` argument is the key TTL, not a
wall-clock bound; on a key that stays held the sleeps are exactly the first
`max_retries - 1` powers of two, their total is finite (at most
`retry_delay * (2 ^ max_retries - 1)`), so acquisition never blocks
indefinitely, and an exhausted `acquire` makes the context-manager entry
raise `LockAcquisitionError`. -/
theorem C6_retry_policy :
    (∀ l : TableReservationLock, ∀ kv : RedisKV, ∀ d : ℚ, ∀ e : LockEntry,
        kvGet kv l.lock_key = some e → 1 ≤ l.max_retries →
        acquire l (some kv) d =
          (false, some kv, (List.range (l.max_retries - 1)).map fun i => d * 2 ^ i)) ∧
    (∀ l : TableReservationLock, ∀ kv : RedisKV, ∀ d : ℚ, 0 ≤ d →
        ((acquire l (some kv) d).2.2).sum ≤ d * (2 ^ l.max_retries - 1)) ∧
    (∀ l : TableReservationLock, ∀ client : Option RedisKV, ∀ d : ℚ,
        ((enterLock l client d).1 = .lockAcquisitionError ↔
          (acquire l client d).1 = false)) := by
  refine ⟨?_, ?_, ?_⟩
  · intro l kv d e hget hn
    exact acquire_held hget hn d
  · intro l kv d hd
    exact acquire_sleep_bounded l kv d hd
  · intro l client d
    cases hres : (acquire l client d).1 <;> simp [enterLock, hres]

/-- Witness for C6's amended claim at concrete inputs. -/
theorem C6_retry_policy_witness :
    acquire exLock (some exHeldKV) 2 =
      (false, some exHeldKV,
        (List.range (exLock.max_retries - 1)).map fun i => (2 : ℚ) * 2 ^ i) ∧
    ((acquire exLock (some exHeldKV) 2).2.2).sum ≤
      2 * (2 ^ exLock.max_retries - 1) ∧
    ((enterLock exLock (some exHeldKV) 2).1 = .lockAcquisitionError ↔
      (acquire exLock (some exHeldKV) 2).1 = false) := by
  exact ⟨C6_retry_policy.1 exLock exHeldKV 2 exHeldEntry rfl (by decide),
    C6_retry_policy.2.1 exLock exHeldKV 2 (by norm_num),
    C6_retry_policy.2.2 exLock (some exHeldKV) 2⟩

/-- C7: Availability-cache TTL asymmetry — on a cache miss with a working
store, `check_table_availability` writes the computed availability back with
TTL 600 seconds when the slot is available and 120 seconds when it is not,
and 600 is strictly greater than 120. -/
theorem C7_cache_ttl_asymmetry :
    ∀ db : DB, ∀ t dte tm : Nat,
      check_table_availability db true none true t dte tm =
        (availabilityQuery db t dte tm,
          some ⟨availabilityQuery db t dte tm,
            if availabilityQuery db t dte tm then 600 else 120⟩) ∧
      (120 : Nat) < 600 := by
  intro db t dte tm
  exact ⟨rfl, by norm_num⟩

/-- C8: Reminder job no-op condition — `send_reminder` never mutates the
reservation table in any path, a reservation whose status is anything but
CONFIRMED (including PENDING) produces the no-op outcome with no email, a
missing id produces the not-found outcome, and an email is sent only when the
reservation is CONFIRMED and delivery succeeds. -/
theorem C8_reminder_noop :
    ∀ db : DB, ∀ emailOk : Bool, ∀ rid : Nat,
      (send_reminder db emailOk rid).2.1 = db ∧
      (∀ r : Reservation, findRes db rid = some r → r.status ≠ .confirmed →
        send_reminder db emailOk rid = (.notConfirmed, db, 0)) ∧
      (findRes db rid = none →
        send_reminder db emailOk rid = (.notFound, db, 0)) ∧
      ((send_reminder db emailOk rid).2.2 ≠ 0 →
        ∃ r : Reservation, findRes db rid = some r ∧ r.status = .confirmed ∧
          emailOk = true) := by
  intro db emailOk rid
  refine ⟨?_, ?_, ?_, ?_⟩
  · cases hfind : findRes db rid with
    | none => simp [send_reminder, hfind]
    | some r =>
      by_cases hst : r.status = .confirmed
      · cases emailOk <;> simp [send_reminder, hfind, hst]
      · simp [send_reminder, hfind, hst]
  · intro r hfind hst
    simp [send_reminder, hfind, hst]
  · intro hfind
    simp [send_reminder, hfind]
  · intro hsent
    cases hfind : findRes db rid with
    | none => simp [send_reminder, hfind] at hsent
    | some r =>
      by_cases hst : r.status = .confirmed
      · cases hok : emailOk with
        | true => exact ⟨r, rfl, hst, rfl⟩
        | false => simp [send_reminder, hfind, hst, hok] at hsent
      · simp [send_reminder, hfind, hst] at hsent

/-- Witness for C8 at concrete inputs: the cancelled example reservation is
left alone with a no-op outcome, and a missing id is the not-found outcome. -/
theorem C8_reminder_noop_witness :
    (send_reminder [exCancelled] true 1).2.1 = [exCancelled] ∧
    send_reminder [exCancelled] true 1 = (.notConfirmed, [exCancelled], 0) ∧
    send_reminder [exCancelled] true 2 = (.notFound, [exCancelled], 0) := by
  refine ⟨(C8_reminder_noop [exCancelled] true 1).1, ?_, ?_⟩
  · exact (C8_reminder_noop [exCancelled] true 1).2.1 exCancelled rfl (by decide)
  · exact (C8_reminder_noop [exCancelled] true 2).2.2.1 rfl

/-- C9: Implicit — the lock degrades open without its key-value collaborator.
With no Redis client, every `acquire` immediately returns true touching no
store, so any two callers simultaneously "hold" the same slot lock and mutual
exclusion is not provided, and `release` likewise reports success without
touching any store. -/
theorem C9_lock_degrades_open :
    (∀ l : TableReservationLock, ∀ d : ℚ, acquire l none d = (true, none, [])) ∧
    (∀ l1 l2 : TableReservationLock, ∀ d1 d2 : ℚ,
      (acquire l1 none d1).1 = true ∧ (acquire l2 none d2).1 = true) ∧
    (∀ l : TableReservationLock, l.lock_acquired = true →
      release l none = (true, { l with lock_acquired := false }, none)) := by
  refine ⟨fun l d => rfl, fun l1 l2 d1 d2 => ⟨rfl, rfl⟩, ?_⟩
  intro l hacq
  simp [release, hacq]

/-- Witness for C9 at concrete inputs: both example lock instances acquire
with no client, and the held instance releases reporting success. -/
theorem C9_lock_degrades_open_witness :
    ((acquire exLock none 1).1 = true ∧ (acquire exLockHeld none 1).1 = true) ∧
    release exLockHeld none = (true, { exLockHeld with lock_acquired := false }, none) := by
  exact ⟨C9_lock_degrades_open.2.1 exLock exLockHeld 1 1,
    C9_lock_degrades_open.2.2 exLockHeld rfl⟩

/-- C10: Implicit — the availability check fails closed.  When the store
lookup raises (modelled by `dbUp = false`) on a cache miss, or with the
cache disabled, `check_table_availability` returns false (slot reported
unavailable) and writes no cache entry. -/
theorem C10_availability_fails_closed :
    ∀ db : DB, ∀ t dte tm : Nat, ∀ cached : Option Bool,
      check_table_availability db false none true t dte tm = (false, none) ∧
      check_table_availability db false cached false t dte tm = (false, none) := by
  intro db t dte tm cached
  exact ⟨rfl, rfl⟩


end ReservaFlow
